import Mathlib

/-!
# NeuralHUDComponent.h

The header `Scripts/Unreal/UI/NeuralHUDComponent.h` is a single class
declaration with one method declaration and no bodies:

    UCLASS()
    class NEURALUI_API UNeuralHUDComponent : public UActorComponent
    {
        GENERATED_BODY()

        UFUNCTION(BlueprintCallable)
        void UpdateContextualActions(FVector2D TouchDelta);
    };

The development below transcribes that declaration as data, gives the C++
rules the declaration is subject to (member access, parameter passing, the
meaning of the declared types) as executable functions, and states the
properties of the declaration over them.  What the header does not contain
is a parameter: the scalar type of `FVector2D`, the state of the base
`UActorComponent`, the body of the method, and what the engine macro
`GENERATED_BODY()` does to the access level in effect.
-/

namespace NeuralHUD

/-! ## Declarations as data -/

/-- The two class keys of C++; they differ in the default member access. -/
inductive ClassKey where
  | classKey
  | structKey
  deriving DecidableEq, Repr

/-- Member access levels. -/
inductive Access where
  | isPrivate
  | isProtected
  | isPublic
  deriving DecidableEq, Repr

/-- The types that can be written in a declaration of this model. -/
inductive CppType where
  | void
  | bool
  | FVector2D
  deriving DecidableEq, Repr

/-- How a parameter is declared: `T x`, `T& x` or `T* x`. -/
inductive Passing where
  | byValue
  | byReference
  | byPointer
  deriving DecidableEq, Repr

/-- One parameter of a method declaration. -/
structure ParamDecl where
  type : CppType
  passing : Passing
  name : String
  deriving DecidableEq, Repr

/-- A method declaration, with the specifiers of the `UFUNCTION(...)` line
written before it. -/
structure MethodDecl where
  ufunction : List String
  ret : CppType
  name : String
  params : List ParamDecl
  deriving DecidableEq, Repr

/-- A non-static data member declaration. -/
structure FieldDecl where
  type : CppType
  name : String
  deriving DecidableEq, Repr

/-- One item of a class body, in source order. -/
inductive MemberItem where
  | macroCall (name : String)
  | accessSpecifier (a : Access)
  | method (m : MethodDecl)
  | field (f : FieldDecl)
  deriving DecidableEq, Repr

/-- A base-class specifier such as `public UActorComponent`. -/
structure BaseSpec where
  access : Access
  name : String
  deriving DecidableEq, Repr

/-- A class declaration. -/
structure ClassDecl where
  key : ClassKey
  api : String
  name : String
  bases : List BaseSpec
  friends : List String
  body : List MemberItem
  deriving DecidableEq, Repr

/-- Line 7 of the header:
`UFUNCTION(BlueprintCallable) void UpdateContextualActions(FVector2D TouchDelta);` -/
def UpdateContextualActions : MethodDecl where
  ufunction := ["BlueprintCallable"]
  ret := CppType.void
  name := "UpdateContextualActions"
  params := [ParamDecl.mk CppType.FVector2D Passing.byValue "TouchDelta"]

/-- Lines 1 to 8 of the header: the class, its base and its body. -/
def UNeuralHUDComponent : ClassDecl where
  key := ClassKey.classKey
  api := "NEURALUI_API"
  name := "UNeuralHUDComponent"
  bases := [BaseSpec.mk Access.isPublic "UActorComponent"]
  friends := []
  body := [MemberItem.macroCall "GENERATED_BODY", MemberItem.method UpdateContextualActions]

/-! ## Member access -/

/-- Members of a `class` are private until an access specifier says
otherwise, members of a `struct` are public. -/
def defaultAccess : ClassKey → Access
  | ClassKey.classKey => Access.isPrivate
  | ClassKey.structKey => Access.isPublic

/-- Walks a class body in source order and pairs every method with the access
level in effect where it is declared.  `g` is what a macro invocation does to
the access level in effect (the engine defines the macro, not this header). -/
def methodsFrom (g : String → Access → Access) : Access → List MemberItem → List (Access × MethodDecl)
  | _, [] => []
  | cur, MemberItem.macroCall n :: rest => methodsFrom g (g n cur) rest
  | _, MemberItem.accessSpecifier a :: rest => methodsFrom g a rest
  | cur, MemberItem.method m :: rest => (cur, m) :: methodsFrom g cur rest
  | cur, MemberItem.field _ :: rest => methodsFrom g cur rest

/-- The methods a class declares, each with its access level. -/
def declaredMethods (g : String → Access → Access) (c : ClassDecl) : List (Access × MethodDecl) :=
  methodsFrom g (defaultAccess c.key) c.body

/-- The access level of the method called `n`, when the class declares one. -/
def accessOf (g : String → Access → Access) (c : ClassDecl) (n : String) : Option Access :=
  ((declaredMethods g c).find? (fun p => p.2.name == n)).map Prod.fst

/-- A macro that leaves the access level as it found it. -/
def keepsAccess : String → Access → Access :=
  fun _ a => a

/-- Where a call is written. -/
inductive CallSite where
  | memberOf (cls : String)
  | memberOfDerived (cls : String) (base : String)
  | nonMember (fn : String)
  deriving DecidableEq, Repr

/-- Whether a member of class `c` with access level `a` may be named at a
call site: a public member anywhere, a protected one in members and friends
of `c` and in members of classes derived from `c`, a private one in members
and friends of `c` only. -/
def accessibleAt (c : ClassDecl) (a : Access) : CallSite → Bool
  | CallSite.memberOf cls =>
      a == Access.isPublic || cls == c.name || c.friends.contains cls
  | CallSite.memberOfDerived cls base =>
      a == Access.isPublic || c.friends.contains cls || (a == Access.isProtected && base == c.name)
  | CallSite.nonMember fn =>
      a == Access.isPublic || c.friends.contains fn

/-- Whether the call `obj.n(args)` is well-formed at a call site, for an
object of class `c` and arguments of the given types: the class declares a
method `n` with those parameter types and the method is accessible there. -/
def invokableAt (g : String → Access → Access) (c : ClassDecl) (n : String)
    (args : List CppType) (site : CallSite) : Bool :=
  match (declaredMethods g c).find? (fun p => p.2.name == n) with
  | none => false
  | some (a, m) => (m.params.map ParamDecl.type == args) && accessibleAt c a site

/-! ## Data members -/

/-- The non-static data members written in a class body. -/
def fieldsOf : List MemberItem → List FieldDecl
  | [] => []
  | MemberItem.field f :: rest => f :: fieldsOf rest
  | _ :: rest => fieldsOf rest

/-- The data members a class declares itself. -/
def dataMembers (c : ClassDecl) : List FieldDecl :=
  fieldsOf c.body

/-! ## Meaning of the declared types -/

/-- The engine's two-component vector, over the engine's scalar type `R`. -/
structure FVector2D (R : Type) where
  X : R
  Y : R
  deriving DecidableEq, Repr

/-- The values of a declared type: `void` has the single value `()`. -/
def CppType.denote (R : Type) : CppType → Type
  | CppType.void => Unit
  | CppType.bool => Bool
  | CppType.FVector2D => NeuralHUD.FVector2D R

/-- The values of a parameter list, one component per parameter. -/
def ParamsVal (R : Type) : List ParamDecl → Type
  | [] => Unit
  | p :: ps => p.type.denote R × ParamsVal R ps

/-- The state a class adds to its bases: one component per data member. -/
def FieldsVal (R : Type) : List FieldDecl → Type
  | [] => Unit
  | f :: fs => f.type.denote R × FieldsVal R fs

/-- The state of a component object: the state of its base, which the engine
defines, and the state its own data members add. -/
structure ComponentState (Base : Type) (R : Type) (c : ClassDecl) where
  base : Base
  own : FieldsVal R (dataMembers c)

/-- What a method body can be: it runs on the object state and on the method's
own parameter variables, and ends with a new object state, the final values
of its parameter variables and a value of the declared return type. -/
def MethodBody (St : Type) (R : Type) (m : MethodDecl) : Type :=
  St → ParamsVal R m.params → St × ParamsVal R m.params × m.ret.denote R

/-- The caller's argument variables after a call: a by-value parameter is the
callee's own copy, so the caller's variable keeps its value; a reference or
pointer parameter designates the caller's variable, which takes the value the
callee left in it. -/
def writeBack (R : Type) : (ps : List ParamDecl) → ParamsVal R ps → ParamsVal R ps → ParamsVal R ps
  | [], _, _ => ()
  | p :: ps, callerArgs, calleeFinal =>
      (match p.passing with
        | Passing.byValue => callerArgs.1
        | Passing.byReference => calleeFinal.1
        | Passing.byPointer => calleeFinal.1,
       writeBack R ps callerArgs.2 calleeFinal.2)

/-- What the caller observes of a call. -/
structure CallResult (St : Type) (R : Type) (m : MethodDecl) where
  state : St
  callerArgs : ParamsVal R m.params
  value : m.ret.denote R

/-- A call of method `m` with body `body` on object state `s`, the caller's
argument variables holding `args`. -/
def call {St : Type} {R : Type} (m : MethodDecl) (body : MethodBody St R m) (s : St)
    (args : ParamsVal R m.params) : CallResult St R m :=
  let out := body s args
  CallResult.mk out.1 (writeBack R m.params args out.2.1) out.2.2

end NeuralHUD

namespace NeuralHUD

/-! ## Properties of the declaration -/

/-- A reference parameter, unlike the by-value one of the header, lets the
callee change the caller's variable: `writeBack` tells the two apart. -/
theorem writeBack_byReference_takes_callee_value :
    writeBack Int [ParamDecl.mk CppType.FVector2D Passing.byReference "TouchDelta"]
        ((FVector2D.mk 1 2 : FVector2D Int), ()) ((FVector2D.mk 0 0 : FVector2D Int), ())
      = ((FVector2D.mk 0 0 : FVector2D Int), ()) := by
  rfl

/-- With an access specifier `public:` written before it, the same method
declaration is invokable from a non-member function. -/
theorem invokableAt_with_public_specifier :
    invokableAt keepsAccess
        (ClassDecl.mk ClassKey.classKey "NEURALUI_API" "UNeuralHUDComponent"
          [BaseSpec.mk Access.isPublic "UActorComponent"] []
          [MemberItem.macroCall "GENERATED_BODY", MemberItem.accessSpecifier Access.isPublic,
           MemberItem.method UpdateContextualActions])
        "UpdateContextualActions" [CppType.FVector2D] (CallSite.nonMember "Caller") = true := by
  decide

/-- C1: the class declares exactly one method, `UpdateContextualActions`,
taking one `FVector2D`; it is declared in a `class` body with no access
specifier before it, so its access level is what `GENERATED_BODY()` makes of
`private`, and with a macro that leaves the access level as it found it the
method is private: a call with a 2D vector from any non-member function, or
from a member of another class, is not well-formed, while a call from a
member of the class itself is. -/
theorem UpdateContextualActions_not_invokable_outside :
    (∀ g : String → Access → Access,
        (declaredMethods g UNeuralHUDComponent).map Prod.snd = [UpdateContextualActions]) ∧
    UpdateContextualActions.params.map ParamDecl.type = [CppType.FVector2D] ∧
    (∀ g : String → Access → Access,
        accessOf g UNeuralHUDComponent "UpdateContextualActions"
          = some (g "GENERATED_BODY" Access.isPrivate)) ∧
    accessOf keepsAccess UNeuralHUDComponent "UpdateContextualActions" = some Access.isPrivate ∧
    (∀ fn : String,
        invokableAt keepsAccess UNeuralHUDComponent "UpdateContextualActions"
          [CppType.FVector2D] (CallSite.nonMember fn) = false) ∧
    invokableAt keepsAccess UNeuralHUDComponent "UpdateContextualActions"
        [CppType.FVector2D] (CallSite.memberOf "UInputBindingLayer") = false ∧
    invokableAt keepsAccess UNeuralHUDComponent "UpdateContextualActions"
        [CppType.FVector2D] (CallSite.memberOf "UNeuralHUDComponent") = true := by
  refine ⟨fun g => rfl, rfl, fun g => ?_, by decide, fun fn => ?_, by decide, by decide⟩
  · simp [accessOf, declaredMethods, methodsFrom, UNeuralHUDComponent, defaultAccess,
      UpdateContextualActions]
  · simp [invokableAt, declaredMethods, methodsFrom, UNeuralHUDComponent, defaultAccess,
      UpdateContextualActions, keepsAccess, accessibleAt]

/-- C2: the declared return type of `UpdateContextualActions` is `void`; a
body for the method is a total function from the object state and a 2D vector
to the new object state, the vector variable and `Unit` (no `Option`, no
`Except`), and for every body, state and vector the value a call returns is
the single value `()`. -/
theorem UpdateContextualActions_returns_nothing (St R : Type) :
    UpdateContextualActions.ret = CppType.void ∧
    UpdateContextualActions.ret.denote R = Unit ∧
    MethodBody St R UpdateContextualActions
      = (St → FVector2D R × Unit → St × (FVector2D R × Unit) × Unit) ∧
    ∀ (body : MethodBody St R UpdateContextualActions) (s : St) (TouchDelta : FVector2D R),
      (call UpdateContextualActions body s (TouchDelta, ())).value = () := by
  refine ⟨rfl, rfl, rfl, fun _ _ _ => rfl⟩

/-- C3: the class declares no data member, so the state it adds to its base
is the one-point type: any two values of it are equal, any two component
states agree on it, no declared field has type `FVector2D`, and whatever the
body of `UpdateContextualActions` does, the state the class adds is the same
after a call as before. -/
theorem UNeuralHUDComponent_declares_no_state (Base R : Type) :
    dataMembers UNeuralHUDComponent = [] ∧
    (dataMembers UNeuralHUDComponent).find? (fun f => f.type == CppType.FVector2D) = none ∧
    FieldsVal R (dataMembers UNeuralHUDComponent) = Unit ∧
    (∀ a b : FieldsVal R (dataMembers UNeuralHUDComponent), a = b) ∧
    (∀ s t : ComponentState Base R UNeuralHUDComponent, s.own = t.own) ∧
    ∀ (body : MethodBody (ComponentState Base R UNeuralHUDComponent) R UpdateContextualActions)
      (s : ComponentState Base R UNeuralHUDComponent) (TouchDelta : FVector2D R),
      (call UpdateContextualActions body s (TouchDelta, ())).state.own = s.own := by
  refine ⟨rfl, rfl, rfl, fun _ _ => rfl, fun _ _ => rfl, fun _ _ _ => rfl⟩

/-- C4: the parameter `TouchDelta` is declared by value, so for every body of
the method, every object state and every vector `v` of the caller, the
caller's variable still holds `v` after the call `UpdateContextualActions(v)`,
whatever value the body left in its own copy. -/
theorem UpdateContextualActions_keeps_caller_vector (St R : Type)
    (body : MethodBody St R UpdateContextualActions) (s : St) (v : FVector2D R) :
    UpdateContextualActions.params.map ParamDecl.passing = [Passing.byValue] ∧
    (call UpdateContextualActions body s (v, ())).callerArgs = (v, ()) := by
  exact ⟨rfl, rfl⟩

end NeuralHUD
